import Mathlib

/-!
Verification development for the container-image build orchestration core
and the task-context logging filter of the `core` repository.

The container-manager implementation package (BuildContext,
ContextMaterializer, ImageManager, Engine) ships only its tests and
callers in this tree, so those operations are modelled from the design
specification (sections 3, 4.1, 4.2, 6), constrained by the behaviour the
tests in `packages/container-manager/tests/test_dockerfile_path.py`
assert.  The logging filter `TaskContextFilter` is embedded from its
source file `logging/src/rich_logging/filters/task_context_filter.py`.
-/

namespace Core

/-- Byte strings are modelled as lists of naturals (each a byte value). -/
abbrev Bytes := List Nat

/-- Filesystem paths are modelled as lists of components, so the parent
directory of a path is `List.dropLast`. -/
abbrev FPath := List String

/-- Modelled from the spec: the on-disk contract (section 6) — a flat map
from paths to byte contents for regular files, plus the set of existing
directories.  Auxiliary files are "plain create-or-overwrite binary
writes". -/
structure FS where
  files : List (FPath × Bytes)
  dirs : List FPath
deriving DecidableEq, Repr

/-- First-match association lookup over the file table. -/
def lookupFile : List (FPath × Bytes) → FPath → Option Bytes
  | [], _ => none
  | e :: rest, p => if e.1 = p then some e.2 else lookupFile rest p

/-- Read a file's bytes, `none` when absent. -/
def FS.read (fs : FS) (p : FPath) : Option Bytes :=
  lookupFile fs.files p

/-- Whether a regular file exists at `p`. -/
def FS.fileExists (fs : FS) (p : FPath) : Bool :=
  (fs.read p).isSome

/-- Whether a directory exists at `p`. -/
def FS.dirExists (fs : FS) (p : FPath) : Bool :=
  fs.dirs.contains p

/-- Create-or-overwrite binary write of one file (spec section 6: on-disk
contract). -/
def FS.write (fs : FS) (p : FPath) (b : Bytes) : FS :=
  match lookupFile fs.files p with
  | some _ => ⟨fs.files.map (fun e => if e.1 = p then (p, b) else e), fs.dirs⟩
  | none => ⟨fs.files ++ [(p, b)], fs.dirs⟩

/-- Modelled from the spec: the backend configuration record of section
4.2 (binary name, Dockerfile filename for inline writes, success marker in
stdout). -/
structure BackendConfig where
  binary : String
  dockerfileName : String
  successMarker : String
deriving DecidableEq, Repr

/-- The docker row of the backend configuration table. -/
def dockerConfig : BackendConfig :=
  ⟨"docker", "Dockerfile", "Successfully built "⟩

/-- The podman row of the backend configuration table (backend-specific
success marker). -/
def podmanConfig : BackendConfig :=
  ⟨"podman", "Containerfile", "Successfully tagged "⟩

/-- Modelled from the spec: the `dockerfile` field of BuildContext is
either inline Dockerfile text or a filesystem path — exactly one form is
active (spec section 3). -/
inductive DockerfileSrc where
  | path (p : FPath)
  | text (t : String)
deriving DecidableEq, Repr

/-- Modelled from the spec: the immutable, caller-constructed BuildContext
value object (spec section 3): dockerfile, optional context path, and a
mapping of relative file name to byte content. -/
structure BuildContext where
  dockerfile : DockerfileSrc
  context_path : Option FPath := none
  files : List (String × Bytes) := []
deriving DecidableEq, Repr

/-- Modelled from the spec: the ephemeral MaterializedBuildContext (spec
section 3): either a path-based plan or a stream-based plan.  The stream
plan carries its tar entries (relative name, bytes); serialization to tar
bytes is `tarSerialize`. -/
inductive MaterializedBuildContext where
  | pathBuild (dockerfile_path : FPath) (context_dir : FPath)
  | streamBuild (tar_entries : List (String × Bytes))
deriving DecidableEq, Repr

/-- UTF-8-agnostic byte view of a string used for inline Dockerfile text
written to disk or embedded in the tar stream. -/
def strBytes (s : String) : Bytes :=
  s.toList.map Char.toNat

/-- Write each `files` entry under the directory `dir`, in mapping order
(spec section 4.1: "write each entry under context_dir"). -/
def writeEntries (fs : FS) (dir : FPath) (entries : List (String × Bytes)) : FS :=
  entries.foldl (fun acc e => acc.write (dir ++ [e.1]) e.2) fs

/-- Modelled from the spec: the error taxonomy of section 7 that the
materializer and build can signal. -/
inductive BuildError where
  | notFound
  | spawnFailed
  | buildFailed (stderr : String)
  | parseFailed
deriving DecidableEq, Repr

/-- Modelled from the spec: the ContextMaterializer algorithm of section
4.1 — the deterministic mapping from BuildContext (plus the current
filesystem) to MaterializedBuildContext, with its filesystem writes:
1. dockerfile is a path: it must exist, else NotFound; context_dir is the
   explicit context_path if given, else the Dockerfile's parent; `files`
   entries are written under context_dir; returns PathBuild.
2. dockerfile is text and context_path given: context_path must exist as a
   directory; a file named per the backend convention holding the text is
   written, then each `files` entry, all under context_path; returns
   PathBuild referencing the written Dockerfile.
3. dockerfile is text and context_path absent: an in-memory tar entry list
   with the text under the backend filename plus one entry per `files`
   entry; returns StreamBuild with no filesystem writes. -/
def materialize (cfg : BackendConfig) (bc : BuildContext) (fs : FS) :
    Except BuildError (MaterializedBuildContext × FS) :=
  match bc.dockerfile with
  | .path p =>
    if fs.fileExists p then
      let ctx := bc.context_path.getD p.dropLast
      Except.ok (.pathBuild p ctx, writeEntries fs ctx bc.files)
    else Except.error .notFound
  | .text t =>
    match bc.context_path with
    | some cp =>
      if fs.dirExists cp then
        Except.ok (.pathBuild (cp ++ [cfg.dockerfileName]) cp,
          writeEntries fs cp ((cfg.dockerfileName, strBytes t) :: bc.files))
      else Except.error .notFound
    | none =>
      Except.ok (.streamBuild ((cfg.dockerfileName, strBytes t) :: bc.files), fs)

/-- Pad a byte list with zero bytes up to the next 512-byte block boundary
(tar block structure). -/
def pad512 (b : Bytes) : Bytes :=
  b ++ List.replicate ((512 - b.length % 512) % 512) 0

/-- Modelled from the spec: a tar entry header block — the entry name and
its size, laid out in one 512-byte block (a simplified but non-degenerate
rendering of the uncompressed tar framing of section 6). -/
def tarHeaderBlock (name : String) (size : Nat) : Bytes :=
  pad512 (strBytes name ++ [0] ++ (Nat.toDigits 8 size).map Char.toNat)

/-- Serialize one tar entry: header block then content padded to blocks. -/
def tarEntryBytes (e : String × Bytes) : Bytes :=
  tarHeaderBlock e.1 e.2.length ++ pad512 e.2

/-- Modelled from the spec: serialize the entry list of a stream plan to
the uncompressed tar byte payload sent on stdin — entry blocks followed by
the two 512-byte zero end-of-archive blocks. -/
def tarSerialize (entries : List (String × Bytes)) : Bytes :=
  (entries.map tarEntryBytes).flatten ++ List.replicate 1024 0

/-- Render a component path as the flat string appearing in argv. -/
def pathStr (p : FPath) : String :=
  "/" ++ String.intercalate "/" p

/-- Modelled from the spec: the EngineInvocation — argv plus optional
stdin payload sent to CommandRunner, built fresh per call (spec section
3). -/
structure EngineInvocation where
  argv : List String
  input_data : Option Bytes
deriving DecidableEq, Repr

/-- Modelled from the spec: build() argv construction (spec section 4.2):
PathBuild gives `[engine, "build", "-f", dockerfile_path, "-t", tag,
context_dir]` with no stdin; StreamBuild gives `[engine, "build", "-t",
tag, "-"]` with the tar bytes on stdin. -/
def mkInvocation (cfg : BackendConfig) (tag : String) :
    MaterializedBuildContext → EngineInvocation
  | .pathBuild dp cd =>
    ⟨[cfg.binary, "build", "-f", pathStr dp, "-t", tag, pathStr cd], none⟩
  | .streamBuild entries =>
    ⟨[cfg.binary, "build", "-t", tag, "-"], some (tarSerialize entries)⟩

/-- Modelled from the spec: the CommandRunner collaborator's result (spec
section 6) — either the binary could not be spawned at all, or it exited
with an exit code and captured stdout/stderr. -/
inductive RunResult where
  | spawnFailed
  | exited (exit_code : Nat) (stdout : String) (stderr : String)
deriving DecidableEq, Repr

/-- Bool test that `m` occurs at the start of `s` (character lists). -/
def startsWithChars : List Char → List Char → Bool
  | _, [] => true
  | [], _ :: _ => false
  | c :: cs, d :: ds => c = d && startsWithChars cs ds

/-- Suffix of `s` right after the first occurrence of `m`, if any. -/
def afterMarkerChars (m : List Char) : List Char → Option (List Char)
  | [] => none
  | c :: rest =>
    if startsWithChars (c :: rest) m then some ((c :: rest).drop m.length)
    else afterMarkerChars m rest

/-- Modelled from the spec: parse the image identifier from the success
line of stdout using the backend's known marker (spec section 4.2) — the
token following the marker's first occurrence. -/
def parseImageId (marker stdout : String) : Option String :=
  match afterMarkerChars marker.toList stdout.toList with
  | some rest => some (String.mk (rest.takeWhile (fun c => c ≠ ' ' && c ≠ '\n')))
  | none => none

/-- Modelled from the spec: the shared build() algorithm of section 4.2 —
materialize, build the invocation, run it via the CommandRunner
collaborator (here a function from invocation to RunResult), signal
SpawnFailed or BuildFailed-with-stderr as appropriate, else parse the
image identifier (ParseFailed when it is not recoverable).  Returns the
image id together with the filesystem after materialization. -/
def build (cfg : BackendConfig) (bc : BuildContext) (tag : String) (fs : FS)
    (runner : EngineInvocation → RunResult) : Except BuildError (String × FS) :=
  match materialize cfg bc fs with
  | .error e => Except.error e
  | .ok (plan, fs') =>
    match runner (mkInvocation cfg tag plan) with
    | .spawnFailed => Except.error .spawnFailed
    | .exited code out err =>
      if code ≠ 0 then Except.error (.buildFailed err)
      else
        match parseImageId cfg.successMarker out with
        | some id => Except.ok (id, fs')
        | none => Except.error .parseFailed

/-- Modelled from the spec: the availability probe argv (spec section 6:
`<engine> version`). -/
def versionInvocation (cfg : BackendConfig) : EngineInvocation :=
  ⟨[cfg.binary, "version"], none⟩

/-- Modelled from the spec: is_available() (spec section 4.2) — invoke the
version flag; only a failure to spawn makes it false, a spawned-but-erroring
binary is still available. -/
def is_available (cfg : BackendConfig) (runner : EngineInvocation → RunResult) : Bool :=
  match runner (versionInvocation cfg) with
  | .spawnFailed => false
  | .exited _ _ _ => true

end Core

namespace Core

/-- The path-mode invocation shape: argv carries a Dockerfile path via
`-f` and a trailing context directory, with no stdin payload. -/
def isPathShape (cfg : BackendConfig) (tag : String) (inv : EngineInvocation) : Prop :=
  (∃ dp cd, inv.argv = [cfg.binary, "build", "-f", dp, "-t", tag, cd]) ∧
    inv.input_data = none

/-- The stream-mode invocation shape: argv ends with the context argument
`-` and a non-empty tar byte payload is passed on stdin. -/
def isStreamShape (inv : EngineInvocation) : Prop :=
  inv.argv.getLast? = some "-" ∧ ∃ d, inv.input_data = some d ∧ d ≠ []

/-- The serialized tar payload is never empty (it always ends with the two
512-byte end-of-archive blocks). -/
theorem tarSerialize_ne_nil (entries : List (String × Bytes)) :
    tarSerialize entries ≠ [] := by
  intro h
  have hl : (1024 : Nat) ≤ (tarSerialize entries).length := by
    simp only [tarSerialize, List.length_append, List.length_replicate]
    omega
  rw [h] at hl
  simp at hl

end Core

/-- C1: every engine invocation constructed from a materialized
BuildContext takes exactly one of the two shapes — path mode (Dockerfile
via `-f`, context directory, no stdin payload) or stream mode (argv ending
in `-` with non-empty tar bytes on stdin) — never both and never
neither. -/
theorem c1_invocation_shape_exclusive (cfg : Core.BackendConfig)
    (bc : Core.BuildContext) (tag : String) (fs : Core.FS)
    (plan : Core.MaterializedBuildContext) (fs' : Core.FS)
    (h : Core.materialize cfg bc fs = Except.ok (plan, fs')) :
    (Core.isPathShape cfg tag (Core.mkInvocation cfg tag plan) ∧
      ¬ Core.isStreamShape (Core.mkInvocation cfg tag plan)) ∨
    (Core.isStreamShape (Core.mkInvocation cfg tag plan) ∧
      ¬ Core.isPathShape cfg tag (Core.mkInvocation cfg tag plan)) := by
  clear h
  cases plan with
  | pathBuild dp cd =>
    left
    constructor
    · exact ⟨⟨Core.pathStr dp, Core.pathStr cd, rfl⟩, rfl⟩
    · rintro ⟨-, d, hd, -⟩
      simp [Core.mkInvocation] at hd
  | streamBuild entries =>
    right
    constructor
    · exact ⟨by simp [Core.mkInvocation],
        Core.tarSerialize entries, rfl, Core.tarSerialize_ne_nil entries⟩
    · rintro ⟨-, hnone⟩
      simp [Core.mkInvocation] at hnone

/-- C1 witness: the exclusivity instantiated at a concrete stream-mode
BuildContext. -/
theorem c1_invocation_shape_exclusive_witness :
    (Core.isPathShape Core.dockerConfig "t"
        (Core.mkInvocation Core.dockerConfig "t"
          (Core.MaterializedBuildContext.streamBuild
            [("Dockerfile", Core.strBytes "FROM alpine")])) ∧
      ¬ Core.isStreamShape
        (Core.mkInvocation Core.dockerConfig "t"
          (Core.MaterializedBuildContext.streamBuild
            [("Dockerfile", Core.strBytes "FROM alpine")]))) ∨
    (Core.isStreamShape
        (Core.mkInvocation Core.dockerConfig "t"
          (Core.MaterializedBuildContext.streamBuild
            [("Dockerfile", Core.strBytes "FROM alpine")])) ∧
      ¬ Core.isPathShape Core.dockerConfig "t"
        (Core.mkInvocation Core.dockerConfig "t"
          (Core.MaterializedBuildContext.streamBuild
            [("Dockerfile", Core.strBytes "FROM alpine")]))) :=
  c1_invocation_shape_exclusive Core.dockerConfig
    ⟨Core.DockerfileSrc.text "FROM alpine", none, []⟩ "t" ⟨[], []⟩
    (Core.MaterializedBuildContext.streamBuild
      [("Dockerfile", Core.strBytes "FROM alpine")]) ⟨[], []⟩ rfl

/-- C2: when the engine process spawned by build() exits nonzero, build()
signals BuildFailed carrying the captured stderr, and no image identifier
is returned (the result is an error, not an ok value). -/
theorem c2_nonzero_exit_build_failed (cfg : Core.BackendConfig)
    (bc : Core.BuildContext) (tag : String) (fs : Core.FS)
    (runner : Core.EngineInvocation → Core.RunResult)
    (plan : Core.MaterializedBuildContext) (fs₁ : Core.FS)
    (code : Nat) (out err : String)
    (hm : Core.materialize cfg bc fs = Except.ok (plan, fs₁))
    (hr : runner (Core.mkInvocation cfg tag plan) =
      Core.RunResult.exited code out err)
    (hc : code ≠ 0) :
    Core.build cfg bc tag fs runner =
      Except.error (Core.BuildError.buildFailed err) := by
  simp only [Core.build, hm, hr]
  simp [hc]

/-- C2 witness: a concrete failing build (exit code 1, stderr "no such
file") yields BuildFailed with that stderr. -/
theorem c2_nonzero_exit_build_failed_witness :
    Core.build Core.dockerConfig
      ⟨Core.DockerfileSrc.text "FROM alpine", none, []⟩ "t" ⟨[], []⟩
      (fun _ => Core.RunResult.exited 1 "" "no such file") =
      Except.error (Core.BuildError.buildFailed "no such file") :=
  c2_nonzero_exit_build_failed Core.dockerConfig
    ⟨Core.DockerfileSrc.text "FROM alpine", none, []⟩ "t" ⟨[], []⟩
    (fun _ => Core.RunResult.exited 1 "" "no such file")
    (Core.MaterializedBuildContext.streamBuild
      [("Dockerfile", Core.strBytes "FROM alpine")]) ⟨[], []⟩
    1 "" "no such file" rfl rfl (by decide)

/-- C3: for a BuildContext whose dockerfile is an existing path and whose
context_path is absent, the resolved context directory is the Dockerfile's
parent directory, and the resulting path-mode invocation sends no stdin
payload. -/
theorem c3_default_context_is_parent (cfg : Core.BackendConfig)
    (tag : String) (p : Core.FPath) (files : List (String × Core.Bytes))
    (fs : Core.FS) (h : fs.fileExists p = true) :
    Core.materialize cfg ⟨Core.DockerfileSrc.path p, none, files⟩ fs =
      Except.ok (Core.MaterializedBuildContext.pathBuild p p.dropLast,
        Core.writeEntries fs p.dropLast files) ∧
    (Core.mkInvocation cfg tag
      (Core.MaterializedBuildContext.pathBuild p p.dropLast)).input_data = none := by
  constructor
  · simp [Core.materialize, h]
  · rfl

/-- C3 witness: concrete instance with dockerfile `/tmp/x/Dockerfile`. -/
theorem c3_default_context_is_parent_witness :
    (Core.FS.fileExists ⟨[(["tmp", "x", "Dockerfile"], Core.strBytes "FROM alpine")], []⟩
        ["tmp", "x", "Dockerfile"] = true) ∧
    Core.materialize Core.dockerConfig
      ⟨Core.DockerfileSrc.path ["tmp", "x", "Dockerfile"], none, []⟩
      ⟨[(["tmp", "x", "Dockerfile"], Core.strBytes "FROM alpine")], []⟩ =
      Except.ok
        (Core.MaterializedBuildContext.pathBuild ["tmp", "x", "Dockerfile"]
          (["tmp", "x", "Dockerfile"] : Core.FPath).dropLast,
        Core.writeEntries ⟨[(["tmp", "x", "Dockerfile"], Core.strBytes "FROM alpine")], []⟩
          (["tmp", "x", "Dockerfile"] : Core.FPath).dropLast []) :=
  ⟨rfl,
    (c3_default_context_is_parent Core.dockerConfig "t" ["tmp", "x", "Dockerfile"] []
      ⟨[(["tmp", "x", "Dockerfile"], Core.strBytes "FROM alpine")], []⟩ rfl).1⟩

/-- C5: for inline dockerfile text with no context_path, the invocation
targets stdin — argv is `[engine, "build", "-t", tag, "-"]` (ending in the
context argument `-`, with no `-f` flag among its elements), and a
non-empty tar byte payload is supplied as input_data. -/
theorem c5_stream_invocation (cfg : Core.BackendConfig) (tag t : String)
    (files : List (String × Core.Bytes)) (fs : Core.FS)
    (hb : cfg.binary ≠ "-f") (ht : tag ≠ "-f") :
    Core.materialize cfg ⟨Core.DockerfileSrc.text t, none, files⟩ fs =
      Except.ok (Core.MaterializedBuildContext.streamBuild
        ((cfg.dockerfileName, Core.strBytes t) :: files), fs) ∧
    (Core.mkInvocation cfg tag (Core.MaterializedBuildContext.streamBuild
        ((cfg.dockerfileName, Core.strBytes t) :: files))).argv =
      [cfg.binary, "build", "-t", tag, "-"] ∧
    (Core.mkInvocation cfg tag (Core.MaterializedBuildContext.streamBuild
        ((cfg.dockerfileName, Core.strBytes t) :: files))).argv.getLast? = some "-" ∧
    "-f" ∉ (Core.mkInvocation cfg tag (Core.MaterializedBuildContext.streamBuild
        ((cfg.dockerfileName, Core.strBytes t) :: files))).argv ∧
    ∃ d, (Core.mkInvocation cfg tag (Core.MaterializedBuildContext.streamBuild
        ((cfg.dockerfileName, Core.strBytes t) :: files))).input_data = some d ∧
      d ≠ [] := by
  refine ⟨rfl, rfl, by simp [Core.mkInvocation], ?_,
    Core.tarSerialize ((cfg.dockerfileName, Core.strBytes t) :: files), rfl,
    Core.tarSerialize_ne_nil _⟩
  simp only [Core.mkInvocation, List.mem_cons, List.not_mem_nil, or_false]
  push_neg
  exact ⟨fun hc => hb hc.symm, by decide, by decide, fun hc => ht hc.symm, by decide⟩

/-- C5 witness: the stream invocation for docker with tag "test-image". -/
theorem c5_stream_invocation_witness :
    Core.dockerConfig.binary ≠ "-f" ∧ ("test-image" : String) ≠ "-f" ∧
    "-f" ∉ (Core.mkInvocation Core.dockerConfig "test-image"
      (Core.MaterializedBuildContext.streamBuild
        ((Core.dockerConfig.dockerfileName, Core.strBytes "FROM alpine") :: []))).argv :=
  ⟨by decide, by decide,
    (c5_stream_invocation Core.dockerConfig "test-image" "FROM alpine" [] ⟨[], []⟩
      (by decide) (by decide)).2.2.2.1⟩

/-- C6: for inline dockerfile text and no context_path, materialization
returns the filesystem unchanged (no write at all), the Dockerfile text
and every files entry living only in the stream plan's tar entries; and a
build on such a context returns whatever filesystem it was given. -/
theorem c6_stream_no_fs_writes (cfg : Core.BackendConfig) (t : String)
    (files : List (String × Core.Bytes)) (fs : Core.FS) :
    Core.materialize cfg ⟨Core.DockerfileSrc.text t, none, files⟩ fs =
      Except.ok (Core.MaterializedBuildContext.streamBuild
        ((cfg.dockerfileName, Core.strBytes t) :: files), fs) ∧
    ∀ tag runner,
      (Core.build cfg ⟨Core.DockerfileSrc.text t, none, files⟩ tag fs runner).map
          (fun r => r.2) =
        (Core.build cfg ⟨Core.DockerfileSrc.text t, none, files⟩ tag fs runner).map
          (fun _ => fs) := by
  refine ⟨rfl, fun tag runner => ?_⟩
  have hm : Core.materialize cfg ⟨Core.DockerfileSrc.text t, none, files⟩ fs =
      Except.ok (Core.MaterializedBuildContext.streamBuild
        ((cfg.dockerfileName, Core.strBytes t) :: files), fs) := rfl
  simp only [Core.build, hm]
  cases hr : runner (Core.mkInvocation cfg tag (Core.MaterializedBuildContext.streamBuild
      ((cfg.dockerfileName, Core.strBytes t) :: files))) with
  | spawnFailed => simp [hr, Except.map]
  | exited code out err =>
    by_cases hc : code = 0
    · cases hp : Core.parseImageId cfg.successMarker out with
      | none => simp [hr, hc, hp, Except.map]
      | some id => simp [hr, hc, hp, Except.map]
    · simp [hr, hc, Except.map]

/-- C8: is_available() is false exactly when the engine binary fails to
spawn on the version probe; a binary that spawns but exits with an error
still counts as available. -/
theorem c8_is_available_iff_spawn (cfg : Core.BackendConfig)
    (runner : Core.EngineInvocation → Core.RunResult) :
    Core.is_available cfg runner = false ↔
      runner (Core.versionInvocation cfg) = Core.RunResult.spawnFailed := by
  cases hr : runner (Core.versionInvocation cfg) with
  | spawnFailed => simp [Core.is_available, hr]
  | exited code out err => simp [Core.is_available, hr]

namespace Core

/-- Replacing the value stored under `p` leaves lookups at other keys
unchanged. -/
theorem lookupFile_map_replace_other (l : List (FPath × Bytes)) (p : FPath)
    (b : Bytes) (q : FPath) (h : q ≠ p) :
    lookupFile (l.map (fun e => if e.1 = p then (p, b) else e)) q =
      lookupFile l q := by
  induction l with
  | nil => rfl
  | cons e rest ih =>
    by_cases he : e.1 = p
    · have hne : p ≠ q := fun hc => h hc.symm
      have hne' : e.1 ≠ q := he ▸ hne
      simp [lookupFile, he, hne, hne', ih]
    · by_cases heq : e.1 = q
      · simp [lookupFile, he, heq, h]
      · simp [lookupFile, he, heq, ih]

/-- Replacing the value stored under a present key `p` makes lookup at `p`
return the new value. -/
theorem lookupFile_map_replace_self (l : List (FPath × Bytes)) (p : FPath)
    (b : Bytes) (h : (lookupFile l p).isSome) :
    lookupFile (l.map (fun e => if e.1 = p then (p, b) else e)) p = some b := by
  induction l with
  | nil => simp [lookupFile] at h
  | cons e rest ih =>
    by_cases he : e.1 = p
    · simp [lookupFile, he]
    · simp only [lookupFile, he, if_false] at h
      simp [lookupFile, he, ih h]

/-- Lookup over an appended table tries the left table first. -/
theorem lookupFile_append (l l' : List (FPath × Bytes)) (q : FPath) :
    lookupFile (l ++ l') q =
      match lookupFile l q with
      | some b => some b
      | none => lookupFile l' q := by
  induction l with
  | nil => rfl
  | cons e rest ih =>
    by_cases he : e.1 = q
    · simp [lookupFile, he]
    · simp [lookupFile, he, ih]

/-- Reading back a freshly written file yields the written bytes. -/
theorem read_write_self (fs : FS) (p : FPath) (b : Bytes) :
    (fs.write p b).read p = some b := by
  cases hl : lookupFile fs.files p with
  | some v =>
    simp only [FS.write, FS.read, hl]
    exact lookupFile_map_replace_self fs.files p b (by simp [hl])
  | none =>
    simp only [FS.write, FS.read, hl, lookupFile_append]
    simp [hl, lookupFile]

/-- Writing one file leaves every other path's content unchanged. -/
theorem read_write_other (fs : FS) (p : FPath) (b : Bytes) (q : FPath)
    (h : q ≠ p) : (fs.write p b).read q = fs.read q := by
  cases hl : lookupFile fs.files p with
  | some v =>
    simp only [FS.write, FS.read, hl]
    exact lookupFile_map_replace_other fs.files p b q h
  | none =>
    simp only [FS.write, FS.read, hl, lookupFile_append]
    cases hq : lookupFile fs.files q with
    | some w => rfl
    | none => simp [lookupFile, Ne.symm h]

/-- A write never deletes: any file present before a write is present
after it. -/
theorem read_write_isSome (fs : FS) (p : FPath) (b : Bytes) (q : FPath)
    (h : (fs.read q).isSome) : ((fs.write p b).read q).isSome := by
  by_cases hq : q = p
  · subst hq
    rw [read_write_self]
    rfl
  · rw [read_write_other fs p b q hq]
    exact h

/-- Replacing a present key's value does not change the key column. -/
theorem map_fst_map_replace (l : List (FPath × Bytes)) (p : FPath) (b : Bytes) :
    (l.map (fun e => if e.1 = p then (p, b) else e)).map Prod.fst =
      l.map Prod.fst := by
  induction l with
  | nil => rfl
  | cons e rest ih =>
    by_cases he : e.1 = p
    · simp [he, ih]
    · simp [he, ih]

/-- Writing to an already-present path keeps the file table's key column
unchanged (the write is an in-place overwrite). -/
theorem write_keys_of_isSome (fs : FS) (p : FPath) (b : Bytes)
    (h : (fs.read p).isSome) :
    (fs.write p b).files.map Prod.fst = fs.files.map Prod.fst := by
  cases hl : lookupFile fs.files p with
  | none => simp only [FS.read, hl] at h; simp at h
  | some v =>
    simp only [FS.write, hl]
    exact map_fst_map_replace fs.files p b

/-- Writes never touch the directory table. -/
theorem write_dirs (fs : FS) (p : FPath) (b : Bytes) :
    (fs.write p b).dirs = fs.dirs := by
  unfold FS.write
  cases lookupFile fs.files p <;> rfl

/-- `writeEntries` unfolds one entry at a time. -/
theorem writeEntries_cons (fs : FS) (dir : FPath) (e : String × Bytes)
    (rest : List (String × Bytes)) :
    writeEntries fs dir (e :: rest) =
      writeEntries (fs.write (dir ++ [e.1]) e.2) dir rest := rfl

/-- Materialization writes never touch the directory table. -/
theorem writeEntries_dirs (fs : FS) (dir : FPath)
    (entries : List (String × Bytes)) :
    (writeEntries fs dir entries).dirs = fs.dirs := by
  induction entries generalizing fs with
  | nil => rfl
  | cons e rest ih =>
    rw [writeEntries_cons, ih, write_dirs]

/-- The last value written under relative name resolving to `q` by an
entry sequence, scanning entries in order with later entries taking
precedence. -/
def lastWrite (dir q : FPath) : List (String × Bytes) → Option Bytes
  | [] => none
  | e :: rest =>
    match lastWrite dir q rest with
    | some b => some b
    | none => if dir ++ [e.1] = q then some e.2 else none

/-- Reading after an entry-sequence write returns the last value written
at that path, or the original content when the sequence never touches
it. -/
theorem read_writeEntries (fs : FS) (dir : FPath)
    (entries : List (String × Bytes)) (q : FPath) :
    (writeEntries fs dir entries).read q =
      match lastWrite dir q entries with
      | some b => some b
      | none => fs.read q := by
  induction entries generalizing fs with
  | nil => rfl
  | cons e rest ih =>
    rw [writeEntries_cons, ih]
    simp only [lastWrite]
    cases hlw : lastWrite dir q rest with
    | some b => rfl
    | none =>
      by_cases hq : dir ++ [e.1] = q
      · simp only [hq, if_pos rfl]
        rw [← hq]
        exact read_write_self fs (dir ++ [e.1]) e.2
      · simp only [if_neg hq]
        exact read_write_other fs (dir ++ [e.1]) e.2 q (fun hc => hq hc.symm)

/-- An entry sequence that never resolves to `q` leaves no last write
there. -/
theorem lastWrite_none_of_all_ne (dir q : FPath)
    (entries : List (String × Bytes))
    (h : ∀ e ∈ entries, dir ++ [e.1] ≠ q) :
    lastWrite dir q entries = none := by
  induction entries with
  | nil => rfl
  | cons e rest ih =>
    simp only [lastWrite, ih (fun x hx => h x (List.mem_cons_of_mem e hx))]
    simp [h e (List.mem_cons_self e rest)]

/-- A name occurring in the entry sequence always has a last write. -/
theorem lastWrite_isSome_of_mem (dir : FPath) (n : String) (b : Bytes)
    (entries : List (String × Bytes)) (h : (n, b) ∈ entries) :
    (lastWrite dir (dir ++ [n]) entries).isSome := by
  induction entries with
  | nil => simp at h
  | cons e rest ih =>
    simp only [lastWrite]
    cases hlw : lastWrite dir (dir ++ [n]) rest with
    | some v => rfl
    | none =>
      rcases List.mem_cons.mp h with he | hm
      · rw [← he]
        simp
      · rw [hlw] at ih
        simp at ih
        exact absurd hm ih

/-- With pairwise-distinct names (a mapping), the last write under a
member name is exactly its bytes. -/
theorem lastWrite_nodup_eq (dir : FPath) (n : String) (b : Bytes)
    (entries : List (String × Bytes))
    (hnd : (entries.map Prod.fst).Nodup) (h : (n, b) ∈ entries) :
    lastWrite dir (dir ++ [n]) entries = some b := by
  induction entries with
  | nil => simp at h
  | cons e rest ih =>
    have hnd' := hnd
    rw [List.map_cons, List.nodup_cons] at hnd'
    simp only [lastWrite]
    rcases List.mem_cons.mp h with he | hm
    · have he1 : e.1 = n := by rw [← he]
      have hrest : lastWrite dir (dir ++ [n]) rest = none := by
        apply lastWrite_none_of_all_ne
        intro x hx hcontra
        have hx1 : x.1 = n := by
          have := List.append_cancel_left hcontra
          simpa using this
        have hxm : x.1 ∈ rest.map Prod.fst := List.mem_map_of_mem Prod.fst hx
        rw [hx1, ← he1] at hxm
        exact hnd'.1 hxm
      rw [hrest, ← he]
      simp
    · rw [ih hnd'.2 hm]

/-- Writes of an entry sequence never delete a file. -/
theorem read_writeEntries_isSome (fs : FS) (dir : FPath)
    (entries : List (String × Bytes)) (q : FPath)
    (h : (fs.read q).isSome) :
    ((writeEntries fs dir entries).read q).isSome := by
  rw [read_writeEntries]
  cases lastWrite dir q entries with
  | some b => rfl
  | none => exact h

/-- Every entry's resolved path exists after the entry sequence is
written. -/
theorem writeEntries_key_isSome_of_mem (fs : FS) (dir : FPath)
    (entries : List (String × Bytes)) (x : String × Bytes)
    (hx : x ∈ entries) :
    ((writeEntries fs dir entries).read (dir ++ [x.1])).isSome := by
  rw [read_writeEntries]
  have hsome := lastWrite_isSome_of_mem dir x.1 x.2 entries hx
  cases hlw : lastWrite dir (dir ++ [x.1]) entries with
  | some b => rfl
  | none => rw [hlw] at hsome; simp at hsome

/-- When every entry's resolved path already exists, writing the sequence
keeps the file table's key column unchanged — no file is created or
duplicated. -/
theorem writeEntries_keys (fs : FS) (dir : FPath)
    (entries : List (String × Bytes))
    (h : ∀ e ∈ entries, (fs.read (dir ++ [e.1])).isSome) :
    (writeEntries fs dir entries).files.map Prod.fst =
      fs.files.map Prod.fst := by
  induction entries generalizing fs with
  | nil => rfl
  | cons e rest ih =>
    rw [writeEntries_cons, ih]
    · exact write_keys_of_isSome fs _ _ (h e (List.mem_cons_self e rest))
    · intro x hx
      exact read_write_isSome _ _ _ _ (h x (List.mem_cons_of_mem e hx))

/-- Re-applying a full entry-sequence write is stable: every path reads
the same and the key column is unchanged. -/
theorem writeEntries_stable (fs : FS) (dir : FPath)
    (entries : List (String × Bytes)) :
    (∀ q, (writeEntries (writeEntries fs dir entries) dir entries).read q =
        (writeEntries fs dir entries).read q) ∧
      (writeEntries (writeEntries fs dir entries) dir entries).files.map Prod.fst =
        (writeEntries fs dir entries).files.map Prod.fst := by
  constructor
  · intro q
    rw [read_writeEntries (writeEntries fs dir entries) dir entries q]
    cases hlw : lastWrite dir q entries with
    | some b =>
      rw [read_writeEntries fs dir entries q, hlw]
    | none => rfl
  · exact writeEntries_keys _ dir entries
      (fun e he => writeEntries_key_isSome_of_mem fs dir entries e he)

end Core

/-- C4 counterexample: with inline text "FROM alpine", context `/tmp/ctx`,
and a `files` entry also named "Dockerfile" (content "FROM busybox"), the
files entry is written after the inline Dockerfile (spec section 4.1 step
2, create-or-overwrite), so the file read back is "FROM busybox", not the
inline text — the round-trip claim fails at this input. -/
theorem c4_roundtrip_counterexample :
    Core.materialize Core.dockerConfig
        ⟨Core.DockerfileSrc.text "FROM alpine", some ["tmp", "ctx"],
          [("Dockerfile", Core.strBytes "FROM busybox")]⟩ ⟨[], [["tmp", "ctx"]]⟩ =
      Except.ok (Core.MaterializedBuildContext.pathBuild ["tmp", "ctx", "Dockerfile"]
          ["tmp", "ctx"],
        ⟨[(["tmp", "ctx", "Dockerfile"], Core.strBytes "FROM busybox")],
          [["tmp", "ctx"]]⟩) ∧
    Core.FS.read ⟨[(["tmp", "ctx", "Dockerfile"], Core.strBytes "FROM busybox")],
        [["tmp", "ctx"]]⟩ ["tmp", "ctx", "Dockerfile"] =
      some (Core.strBytes "FROM busybox") ∧
    Core.strBytes "FROM busybox" ≠ Core.strBytes "FROM alpine" := by
  refine ⟨rfl, rfl, ?_⟩
  decide

/-- C4 (amended): for inline dockerfile text with a given context_path,
provided no `files` entry reuses the backend's Dockerfile filename, a
backend-named Dockerfile is written inside context_path whose content read
back equals the inline text, and the invocation references that file with
`-f` and context_path as context directory, with no stdin payload. -/
theorem c4_roundtrip_amended (cfg : Core.BackendConfig) (tag t : String)
    (cp : Core.FPath) (files : List (String × Core.Bytes)) (fs : Core.FS)
    (hd : fs.dirExists cp = true)
    (hn : ∀ e ∈ files, e.1 ≠ cfg.dockerfileName) :
    Core.materialize cfg ⟨Core.DockerfileSrc.text t, some cp, files⟩ fs =
      Except.ok (Core.MaterializedBuildContext.pathBuild (cp ++ [cfg.dockerfileName]) cp,
        Core.writeEntries fs cp ((cfg.dockerfileName, Core.strBytes t) :: files)) ∧
    (Core.writeEntries fs cp ((cfg.dockerfileName, Core.strBytes t) :: files)).read
        (cp ++ [cfg.dockerfileName]) = some (Core.strBytes t) ∧
    Core.mkInvocation cfg tag
        (Core.MaterializedBuildContext.pathBuild (cp ++ [cfg.dockerfileName]) cp) =
      ⟨[cfg.binary, "build", "-f", Core.pathStr (cp ++ [cfg.dockerfileName]), "-t", tag,
        Core.pathStr cp], none⟩ := by
  refine ⟨by simp [Core.materialize, hd], ?_, rfl⟩
  have hnone : Core.lastWrite cp (cp ++ [cfg.dockerfileName]) files = none := by
    apply Core.lastWrite_none_of_all_ne
    intro e he hc
    exact hn e he (by simpa using List.append_cancel_left hc)
  rw [Core.read_writeEntries]
  simp only [Core.lastWrite, hnone]
  simp

/-- C4 witness: the amended round-trip at docker, context `/tmp/ctx`, text
"FROM alpine" and an extra file "extra.txt". -/
theorem c4_roundtrip_amended_witness :
    (Core.FS.dirExists ⟨[], [["tmp", "ctx"]]⟩ ["tmp", "ctx"] = true) ∧
    (Core.writeEntries ⟨[], [["tmp", "ctx"]]⟩ ["tmp", "ctx"]
        (("Dockerfile", Core.strBytes "FROM alpine") ::
          [("extra.txt", Core.strBytes "content")])).read
        (["tmp", "ctx"] ++ ["Dockerfile"]) = some (Core.strBytes "FROM alpine") :=
  ⟨rfl,
    (c4_roundtrip_amended Core.dockerConfig "t" "FROM alpine" ["tmp", "ctx"]
        [("extra.txt", Core.strBytes "content")] ⟨[], [["tmp", "ctx"]]⟩ rfl
        (by
          intro e he
          simp only [List.mem_singleton] at he
          rw [he]
          decide)).2.1⟩

/-- C7: for a BuildContext materialized in path mode whose `files` names
are pairwise distinct (a mapping), each files entry is written into the
resolved context directory under its relative name with exactly the given
bytes. -/
theorem c7_files_written_path_mode (cfg : Core.BackendConfig)
    (bc : Core.BuildContext) (fs : Core.FS) (dp cd : Core.FPath)
    (fs' : Core.FS)
    (hm : Core.materialize cfg bc fs =
      Except.ok (Core.MaterializedBuildContext.pathBuild dp cd, fs'))
    (hnd : (bc.files.map Prod.fst).Nodup) :
    ∀ n b, (n, b) ∈ bc.files → fs'.read (cd ++ [n]) = some b := by
  intro n b hnb
  obtain ⟨df, cpo, fls⟩ := bc
  simp only at hnd hnb
  cases df with
  | path p =>
    simp only [Core.materialize] at hm
    split at hm
    · simp only [Except.ok.injEq, Prod.mk.injEq,
        Core.MaterializedBuildContext.pathBuild.injEq] at hm
      obtain ⟨⟨h1, h2⟩, h3⟩ := hm
      subst h1 h2 h3
      rw [Core.read_writeEntries]
      rw [Core.lastWrite_nodup_eq _ n b fls hnd hnb]
    · exact absurd hm (by simp)
  | text t =>
    cases cpo with
    | some cp =>
      simp only [Core.materialize] at hm
      split at hm
      · simp only [Except.ok.injEq, Prod.mk.injEq,
          Core.MaterializedBuildContext.pathBuild.injEq] at hm
        obtain ⟨⟨h1, h2⟩, h3⟩ := hm
        subst h2 h3
        rw [Core.read_writeEntries]
        simp only [Core.lastWrite]
        rw [Core.lastWrite_nodup_eq _ n b fls hnd hnb]
      · exact absurd hm (by simp)
    | none =>
      simp only [Core.materialize] at hm
      exact absurd hm (by simp)

/-- C7 witness: the extra-files entry `{"extra.txt": b"content"}` after
path-mode materialization exists in the resolved context directory with
exactly those bytes. -/
theorem c7_files_written_path_mode_witness :
    Core.FS.read ⟨[(["tmp", "Dockerfile"], Core.strBytes "FROM alpine"),
        (["tmp", "extra.txt"], Core.strBytes "content")], []⟩
      (["tmp"] ++ ["extra.txt"]) = some (Core.strBytes "content") :=
  c7_files_written_path_mode Core.dockerConfig
    ⟨Core.DockerfileSrc.path ["tmp", "Dockerfile"], none,
      [("extra.txt", Core.strBytes "content")]⟩
    ⟨[(["tmp", "Dockerfile"], Core.strBytes "FROM alpine")], []⟩
    ["tmp", "Dockerfile"] ["tmp"]
    ⟨[(["tmp", "Dockerfile"], Core.strBytes "FROM alpine"),
      (["tmp", "extra.txt"], Core.strBytes "content")], []⟩
    rfl (by decide) "extra.txt" (Core.strBytes "content") (by decide)

/-- C9: materializing the same BuildContext twice in path mode is
idempotent — the second run succeeds with the same plan, every path reads
the same content as after the first run, and the file table's key column
is unchanged (no duplicated or extra files). -/
theorem c9_path_mode_idempotent (cfg : Core.BackendConfig)
    (bc : Core.BuildContext) (fs : Core.FS) (dp cd : Core.FPath)
    (fs₁ : Core.FS)
    (hm : Core.materialize cfg bc fs =
      Except.ok (Core.MaterializedBuildContext.pathBuild dp cd, fs₁)) :
    ∃ fs₂, Core.materialize cfg bc fs₁ =
        Except.ok (Core.MaterializedBuildContext.pathBuild dp cd, fs₂) ∧
      (∀ q, fs₂.read q = fs₁.read q) ∧
      fs₂.files.map Prod.fst = fs₁.files.map Prod.fst := by
  obtain ⟨df, cpo, fls⟩ := bc
  cases df with
  | path p =>
    simp only [Core.materialize] at hm ⊢
    split at hm
    case isTrue hfe =>
      simp only [Except.ok.injEq, Prod.mk.injEq,
        Core.MaterializedBuildContext.pathBuild.injEq] at hm
      obtain ⟨⟨h1, h2⟩, h3⟩ := hm
      subst h1 h2 h3
      have hfe1 : (Core.writeEntries fs (cpo.getD p.dropLast) fls).fileExists p := by
        unfold Core.FS.fileExists at hfe ⊢
        exact Core.read_writeEntries_isSome fs _ fls p hfe
      rw [if_pos hfe1]
      exact ⟨_, rfl, (Core.writeEntries_stable fs _ fls).1,
        (Core.writeEntries_stable fs _ fls).2⟩
    case isFalse => exact absurd hm (by simp)
  | text t =>
    cases cpo with
    | some cp =>
      simp only [Core.materialize] at hm ⊢
      split at hm
      case isTrue hde =>
        simp only [Except.ok.injEq, Prod.mk.injEq,
          Core.MaterializedBuildContext.pathBuild.injEq] at hm
        obtain ⟨⟨h1, h2⟩, h3⟩ := hm
        subst h2 h3
        have hde1 : (Core.writeEntries fs cp
            ((cfg.dockerfileName, Core.strBytes t) :: fls)).dirExists cp := by
          unfold Core.FS.dirExists at hde ⊢
          rw [Core.writeEntries_dirs]
          exact hde
        rw [if_pos hde1]
        subst h1
        exact ⟨_, rfl, (Core.writeEntries_stable fs cp _).1,
          (Core.writeEntries_stable fs cp _).2⟩
      case isFalse => exact absurd hm (by simp)
    | none =>
      simp only [Core.materialize] at hm
      exact absurd hm (by simp)

/-- C9 witness: the idempotence instantiated after one concrete path-mode
materialization (Dockerfile in `/tmp` with one extra file). -/
theorem c9_path_mode_idempotent_witness :
    ∃ fs₂, Core.materialize Core.dockerConfig
        ⟨Core.DockerfileSrc.path ["tmp", "Dockerfile"], none,
          [("extra.txt", Core.strBytes "content")]⟩
        ⟨[(["tmp", "Dockerfile"], Core.strBytes "FROM alpine"),
          (["tmp", "extra.txt"], Core.strBytes "content")], []⟩ =
        Except.ok (Core.MaterializedBuildContext.pathBuild ["tmp", "Dockerfile"]
          ["tmp"], fs₂) ∧
      (∀ q, fs₂.read q =
        Core.FS.read ⟨[(["tmp", "Dockerfile"], Core.strBytes "FROM alpine"),
          (["tmp", "extra.txt"], Core.strBytes "content")], []⟩ q) ∧
      fs₂.files.map Prod.fst =
        (⟨[(["tmp", "Dockerfile"], Core.strBytes "FROM alpine"),
          (["tmp", "extra.txt"], Core.strBytes "content")], []⟩ : Core.FS).files.map
          Prod.fst :=
  c9_path_mode_idempotent Core.dockerConfig
    ⟨Core.DockerfileSrc.path ["tmp", "Dockerfile"], none,
      [("extra.txt", Core.strBytes "content")]⟩
    ⟨[(["tmp", "Dockerfile"], Core.strBytes "FROM alpine")], []⟩
    ["tmp", "Dockerfile"] ["tmp"]
    ⟨[(["tmp", "Dockerfile"], Core.strBytes "FROM alpine"),
      (["tmp", "extra.txt"], Core.strBytes "content")], []⟩ rfl

namespace RichLogging

/-- A task context dictionary — ordered key/value pairs, modelling the
Python dict stored by LogContext.set_task_context (always containing at
least step_id and task_name when set). -/
abbrev TaskContext := List (String × String)

/-- First-match lookup in a context dictionary. -/
def ctxLookup : TaskContext → String → Option String
  | [], _ => none
  | e :: rest, k => if e.1 = k then some e.2 else ctxLookup rest k

/-- The opening placeholder brace, written by code point. -/
def openBrace : Char := Char.ofNat 123

/-- The closing placeholder brace, written by code point. -/
def closeBrace : Char := Char.ofNat 125

/-- Model of Python str.format restricted to simple named placeholder
fields, which is all the filter's format_template uses (placeholders
step_id and task_name): each field is replaced by the context value under
that name (an absent name renders empty).  The second argument is `some
reversed-key-chars` while inside a placeholder. -/
def renderChars (ctx : TaskContext) : List Char → Option (List Char) → List Char
  | [], _ => []
  | c :: rest, some acc =>
    if c = closeBrace then
      ((ctxLookup ctx (String.mk acc.reverse)).getD "").toList ++
        renderChars ctx rest none
    else renderChars ctx rest (some (c :: acc))
  | c :: rest, none =>
    if c = openBrace then renderChars ctx rest (some [])
    else c :: renderChars ctx rest none

/-- `format_template.format(**context)` from the source, via
`renderChars`. -/
def renderTemplate (template : String) (ctx : TaskContext) : String :=
  String.mk (renderChars ctx template.toList none)

/-- Embedded from `task_context_filter.py`: the filter's state as set by
`__init__` (the parent Filter name does not affect filtering here). -/
structure TaskContextFilter where
  enabled : Bool
  format_template : String
  use_rich_markup : Bool
  task_style : String

/-- A log record as the filter sees it: the message, and the optional
task_context attribute (None models a record without the attribute). -/
structure LogRecord where
  msg : String
  task_context : Option TaskContext

/-- The task identifier the filter prepends: the rendered template,
wrapped in Rich markup `[style]...[/style]` when use_rich_markup is on and
task_style is non-empty (Python string truthiness). -/
def taskIdentifier (f : TaskContextFilter) (ctx : TaskContext) : String :=
  let ti := renderTemplate f.format_template ctx
  if f.use_rich_markup && (f.task_style != "") then
    "[" ++ f.task_style ++ "]" ++ ti ++ "[/" ++ f.task_style ++ "]"
  else ti

/-- Embedded from `task_context_filter.py`: TaskContextFilter.filter.
Returns the verdict (always True) and the record after mutation.  `ctx` is
what LogContext.get_task_context returns for the current thread; Python's
`if context:` treats a missing context and an empty dict alike as
absent. -/
def TaskContextFilter.filter (f : TaskContextFilter) (ctx : Option TaskContext)
    (record : LogRecord) : Bool × LogRecord :=
  if !f.enabled then (true, record)
  else
    match ctx with
    | some c =>
      if c.isEmpty then (true, record)
      else
        (true,
          ⟨taskIdentifier f c ++ record.msg,
            match record.task_context with
            | some tc => some tc
            | none => some c⟩)
    | none => (true, record)

end RichLogging

/-- C10: TaskContextFilter.filter always returns True (it never suppresses
a record); with the filter disabled or no thread-local context set the
message is unchanged; and with a context set (and the filter enabled) the
message becomes the rendered, optionally Rich-wrapped task identifier
prepended to the original message. -/
theorem c10_task_context_filter (f : RichLogging.TaskContextFilter)
    (ctx : Option RichLogging.TaskContext) (r : RichLogging.LogRecord) :
    (f.filter ctx r).1 = true ∧
    (f.enabled = false → (f.filter ctx r).2.msg = r.msg) ∧
    ((f.filter none r).2.msg = r.msg) ∧
    (∀ c, ctx = some c → c ≠ [] → f.enabled = true →
      (f.filter ctx r).2.msg = RichLogging.taskIdentifier f c ++ r.msg) := by
  refine ⟨?_, ?_, ?_, ?_⟩
  · cases hf : f.enabled with
    | false => simp [RichLogging.TaskContextFilter.filter, hf]
    | true =>
      cases ctx with
      | none => simp [RichLogging.TaskContextFilter.filter, hf]
      | some c =>
        by_cases hc : c.isEmpty <;>
          simp [RichLogging.TaskContextFilter.filter, hf, hc]
  · intro hf
    simp [RichLogging.TaskContextFilter.filter, hf]
  · cases hf : f.enabled <;>
      simp [RichLogging.TaskContextFilter.filter, hf]
  · intro c hctx hne hf
    subst hctx
    have hce : c.isEmpty = false := by
      cases c with
      | nil => exact absurd rfl hne
      | cons x xs => rfl
    simp [RichLogging.TaskContextFilter.filter, hf, hce]

/-- C10 witness: the filter at a concrete enabled configuration (template
rendering task_name, markup off) and a concrete context prepends the
rendered identifier. -/
theorem c10_task_context_filter_witness :
    (RichLogging.TaskContextFilter.filter
        ⟨true, "[\x7btask_name\x7d] ", false, "cyan"⟩
        (some [("step_id", "s1"), ("task_name", "install_nodejs")])
        ⟨"Installing package...", none⟩).2.msg =
      RichLogging.taskIdentifier
        ⟨true, "[\x7btask_name\x7d] ", false, "cyan"⟩
        [("step_id", "s1"), ("task_name", "install_nodejs")] ++
        "Installing package..." :=
  (c10_task_context_filter ⟨true, "[\x7btask_name\x7d] ", false, "cyan"⟩
      (some [("step_id", "s1"), ("task_name", "install_nodejs")])
      ⟨"Installing package...", none⟩).2.2.2
    [("step_id", "s1"), ("task_name", "install_nodejs")] rfl (by decide) rfl

/-- C8 witness: a runner that cannot spawn the binary makes availability
false; the iff applied at that concrete runner. -/
theorem c8_is_available_iff_spawn_witness :
    Core.is_available Core.dockerConfig (fun _ => Core.RunResult.spawnFailed) = false :=
  (c8_is_available_iff_spawn Core.dockerConfig
      (fun _ => Core.RunResult.spawnFailed)).mpr rfl
